import Mathlib

/-!
Verification of the typing-analysis engine of the `typesh` repository.

The analysis engine lives in `src/services/TypingAnalyzer.ts` together with the
component modules under `src/services/components/` (`wpmCalculator.ts`,
`accuracyCalculator.ts`, `errorAnalyzer.ts`) and the older component copies kept
in the repository.  Strings are modelled as `List Char`, JavaScript numbers as
`ℚ` (exact rational arithmetic) except where transcendental functions
(`Math.exp`, `Math.sqrt`) force `ℝ`.  `Math.round` on finite values is
`fun x => ⌊x + 1/2⌋` (round half toward positive infinity).
-/

namespace TypeSH

/-- JavaScript `Math.round` on a finite value: round half toward positive infinity. -/
def jsRound (q : ℚ) : Int := ⌊q + 1 / 2⌋

/-- JavaScript `Math.round(x * 100) / 100`: round to two decimal places. -/
def round2 (q : ℚ) : ℚ := (jsRound (q * 100) : ℚ) / 100

/-- The backspace character, written `"\b"` in the TypeScript sources (U+0008). -/
def backspace : Char := Char.ofNat 8

/-- A recorded keystroke, from `src/models/TypingModel.ts`:
`{ key, timestamp (ms), timeSinceLast (ms) }`. -/
structure Keystroke where
  key : Char
  timestamp : ℚ
  timeSinceLast : ℚ
deriving DecidableEq, Repr

/-- A completed typing session, from `src/models/TypingModel.ts` (fields used by
the analyzer).  `startTime`/`endTime` are `Date` values modelled by their
`getTime()` millisecond readings. -/
structure TypingSession where
  startTime : ℚ
  endTime : ℚ
  targetText : List Char
  userInput : List Char
  keystrokes : List Keystroke
deriving DecidableEq, Repr

namespace TypingAnalyzer

/-- Cell `(i, j)` of the dynamic-programming matrix built by
`TypingAnalyzer.levenshteinDistance` (`src/services/TypingAnalyzer.ts`,
lines 60-92): the first column is `matrix[i][0] = i`, the first row is
`matrix[0][j] = j`, and every other cell is
`min(matrix[i-1][j] + 1, matrix[i][j-1] + 1, matrix[i-1][j-1] + substitutionCost)`
with `substitutionCost = 0` exactly when `target[i-1] === input[j-1]`. -/
def levCell (target input : List Char) : Nat → Nat → Nat
  | i, 0 => i
  | 0, j + 1 => j + 1
  | i + 1, j + 1 =>
    let substitutionCost := if target[i]? = input[j]? then 0 else 1
    min (min (levCell target input i (j + 1) + 1) (levCell target input (i + 1) j + 1))
      (levCell target input i j + substitutionCost)
termination_by i j => (i, j)

/-- `TypingAnalyzer.levenshteinDistance(target, input)`: the bottom-right cell
`matrix[targetLen][inputLen]` of the DP matrix. -/
def levenshteinDistance (target input : List Char) : Nat :=
  levCell target input target.length input.length

theorem levCell_zero_right (target input : List Char) (i : Nat) :
    levCell target input i 0 = i := by
  cases i <;> simp [levCell]

theorem levCell_zero_left (target input : List Char) (j : Nat) :
    levCell target input 0 j = j := by
  cases j <;> simp [levCell]

theorem levCell_le_max (target input : List Char) :
    ∀ n i j, i + j ≤ n → levCell target input i j ≤ max i j := by
  intro n
  induction n with
  | zero =>
    intro i j h
    have hi : i = 0 := by omega
    have hj : j = 0 := by omega
    subst hi; subst hj
    simp [levCell]
  | succ n ih =>
    intro i j h
    match i, j with
    | i, 0 => simp [levCell_zero_right]
    | 0, j + 1 => simp [levCell_zero_left]
    | i + 1, j + 1 =>
      have hdiag := ih i j (by omega)
      have hcost :
          (if target[i]? = input[j]? then 0 else 1) ≤ 1 := by
        split <;> omega
      calc levCell target input (i + 1) (j + 1)
          ≤ levCell target input i j + (if target[i]? = input[j]? then 0 else 1) := by
            rw [levCell]; exact min_le_right _ _
        _ ≤ max i j + 1 := by omega
        _ ≤ max (i + 1) (j + 1) := by omega

theorem levCell_diag_self (target : List Char) : ∀ k, levCell target target k k = 0 := by
  intro k
  induction k with
  | zero => simp [levCell]
  | succ k ih =>
    have hstep : levCell target target (k + 1) (k + 1) ≤
        levCell target target k k + (if target[k]? = target[k]? then 0 else 1) := by
      rw [levCell]; exact min_le_right _ _
    have hcost : (if target[k]? = target[k]? then 0 else 1) = 0 := if_pos rfl
    rw [hcost, ih] at hstep
    omega

/-- C6: the edit distance is at most the larger length, equals the target length
against the empty input, equals the input length against the empty target, and
is zero on equal strings. -/
theorem levenshteinDistance_bounds (target input : List Char) :
    levenshteinDistance target input ≤ max target.length input.length ∧
    levenshteinDistance target [] = target.length ∧
    levenshteinDistance [] input = input.length ∧
    levenshteinDistance target target = 0 := by
  refine ⟨?_, ?_, ?_, ?_⟩
  · exact levCell_le_max target input (target.length + input.length) _ _ le_rfl
  · simp [levenshteinDistance, levCell_zero_right]
  · simp [levenshteinDistance, levCell_zero_left]
  · simp [levenshteinDistance, levCell_diag_self]

end TypingAnalyzer

namespace Calculations

/-- Loop body of `countAllTypedCharacters` from the older
`components/calculations.ts` module kept in the repository. -/
def countStep (totalTypedChars : Nat) (keystroke : Keystroke) : Nat :=
  if keystroke.key ≠ backspace then totalTypedChars + 1 else totalTypedChars

/-- Embeds `countAllTypedCharacters`: every keystroke whose key is not the
backspace token increments the count. -/
def countAllTypedCharacters (keystrokes : List Keystroke) : Nat :=
  keystrokes.foldl countStep 0

theorem countStep_foldl (keystrokes : List Keystroke) (m : Nat) :
    keystrokes.foldl countStep m = m + keystrokes.foldl countStep 0 := by
  induction keystrokes generalizing m with
  | nil => simp
  | cons k ks ih =>
    rw [List.foldl_cons, List.foldl_cons, ih, ih (countStep 0 k)]
    unfold countStep
    split <;> omega

theorem countAllTypedCharacters_cons (k : Keystroke) (ks : List Keystroke) :
    countAllTypedCharacters (k :: ks) = countStep 0 k + countAllTypedCharacters ks := by
  rw [countAllTypedCharacters, List.foldl_cons, countStep_foldl]
  rfl

end Calculations

namespace TypingSessionManager

/-- Replay of a keystroke log into the final input string, as performed while
recording in `TypingSessionManager.recordKeystroke`
(`src/services/TypingSessionManager.ts`): a backspace keystroke removes the last
character of the current input (no-op on an empty input), any other keystroke
appends its key. -/
def replayKeystrokes (keystrokes : List Keystroke) : List Char :=
  keystrokes.foldl
    (fun currentInput k =>
      if k.key = backspace then currentInput.dropLast else currentInput ++ [k.key]) []

end TypingSessionManager

namespace TypingAnalyzer

/-- JavaScript character indexing `s[position]` where `position` is a (possibly
negative) integer: out-of-range access yields `undefined`, modelled as `none`. -/
def charAt (s : List Char) (position : Int) : Option Char :=
  if 0 ≤ position then s[position.toNat]? else none

/-- One iteration of the keystroke loop in
`TypingAnalyzer.analyzeKeypressAccuracy` (`src/services/TypingAnalyzer.ts`,
lines 357-393) over the state `(position, correctKeypresses, totalKeypresses)`:
a backspace decrements `position` only when it is positive and counts nothing;
any other keystroke increments `totalKeypresses`, increments
`correctKeypresses` when the key matches the target character at the cursor,
and advances the cursor.  The cursor is an integer to make the non-negativity
of the replayed position a provable property rather than a typing artifact. -/
def keypressStep (targetText : List Char) (st : Int × Nat × Nat)
    (keystroke : Keystroke) : Int × Nat × Nat :=
  if keystroke.key = backspace then
    (if 0 < st.1 then st.1 - 1 else st.1, st.2.1, st.2.2)
  else
    (st.1 + 1,
     if st.1 < (targetText.length : Int) ∧ charAt targetText st.1 = some keystroke.key
       then st.2.1 + 1 else st.2.1,
     st.2.2 + 1)

/-- Result record of `analyzeKeypressAccuracy`. -/
structure KeypressAnalysis where
  totalKeypresses : Nat
  correctKeypresses : Nat
  accuracy : ℚ
deriving DecidableEq, Repr

/-- `TypingAnalyzer.analyzeKeypressAccuracy(keystrokes, targetText)`: replay the
keystroke log against a virtual cursor and report total keypresses, correct
keypresses and `correctKeypresses / totalKeypresses * 100` (100 on zero
keypresses). -/
def analyzeKeypressAccuracy (keystrokes : List Keystroke) (targetText : List Char) :
    KeypressAnalysis :=
  let st := keystrokes.foldl (keypressStep targetText) (0, 0, 0)
  { totalKeypresses := st.2.2
    correctKeypresses := st.2.1
    accuracy :=
      if 0 < st.2.2 then (st.2.1 : ℚ) / (st.2.2 : ℚ) * 100 else 100 }

theorem keypress_foldl_correct_le_total (targetText : List Char) :
    ∀ (keystrokes : List Keystroke) (st : Int × Nat × Nat), st.2.1 ≤ st.2.2 →
      (keystrokes.foldl (keypressStep targetText) st).2.1 ≤
        (keystrokes.foldl (keypressStep targetText) st).2.2 := by
  intro ks
  induction ks with
  | nil => intro st h; simpa using h
  | cons k ks ih =>
    intro st h
    rw [List.foldl_cons]
    refine ih _ ?_
    unfold keypressStep
    split
    · exact h
    · dsimp only
      split <;> omega

theorem keypress_foldl_position_nonneg (targetText : List Char) :
    ∀ (keystrokes : List Keystroke) (st : Int × Nat × Nat), 0 ≤ st.1 →
      0 ≤ (keystrokes.foldl (keypressStep targetText) st).1 := by
  intro ks
  induction ks with
  | nil => intro st h; simpa using h
  | cons k ks ih =>
    intro st h
    rw [List.foldl_cons]
    refine ih _ ?_
    unfold keypressStep
    split
    · dsimp only; split <;> omega
    · dsimp only; omega

theorem keypress_foldl_total_count (targetText : List Char) :
    ∀ (keystrokes : List Keystroke) (st : Int × Nat × Nat),
      (keystrokes.foldl (keypressStep targetText) st).2.2 =
        st.2.2 + Calculations.countAllTypedCharacters keystrokes := by
  intro ks
  induction ks with
  | nil => intro st; simp [Calculations.countAllTypedCharacters]
  | cons k ks ih =>
    intro st
    rw [List.foldl_cons, ih, Calculations.countAllTypedCharacters_cons]
    by_cases hk : k.key = backspace
    · have h1 : Calculations.countStep 0 k = 0 := by
        unfold Calculations.countStep
        rw [if_neg (by simp [hk])]
      have h2 : keypressStep targetText st k =
          (if 0 < st.1 then st.1 - 1 else st.1, st.2.1, st.2.2) := by
        unfold keypressStep
        rw [if_pos hk]
      rw [h1, h2]
      dsimp only
      omega
    · have h1 : Calculations.countStep 0 k = 1 := by
        unfold Calculations.countStep
        rw [if_pos hk]
      have h2 : keypressStep targetText st k =
          (st.1 + 1,
           if st.1 < (targetText.length : Int) ∧ charAt targetText st.1 = some k.key
             then st.2.1 + 1 else st.2.1,
           st.2.2 + 1) := by
        unfold keypressStep
        rw [if_neg hk]
      rw [h1, h2]
      dsimp only
      omega

theorem keypress_foldl_all_correct (targetText : List Char) :
    ∀ (keystrokes : List Keystroke) (n c t : Nat),
      (∀ k ∈ keystrokes, k.key ≠ backspace) →
      keystrokes.map Keystroke.key = targetText.drop n →
      keystrokes.foldl (keypressStep targetText) ((n : Int), c, t) =
        ((n + keystrokes.length : Int), c + keystrokes.length, t + keystrokes.length) := by
  intro ks
  induction ks with
  | nil => intro n c t _ _; simp
  | cons k ks ih =>
    intro n c t hnb hmap
    rw [List.map_cons] at hmap
    have hlt : n < targetText.length := by
      by_contra hge
      rw [List.drop_eq_nil_of_le (by omega)] at hmap
      exact List.cons_ne_nil _ _ hmap
    have hget : targetText[n]? = some k.key := by
      have h0 : (targetText.drop n)[0]? = some k.key := by rw [← hmap]; simp
      rw [List.getElem?_drop] at h0
      simpa using h0
    have hdrop : ks.map Keystroke.key = targetText.drop (n + 1) := by
      have : targetText.drop (n + 1) = List.drop 1 (targetText.drop n) := by
        rw [List.drop_drop]
      rw [this, ← hmap, List.drop_one, List.tail_cons]
    rw [List.foldl_cons]
    have hstep : keypressStep targetText ((n : Int), c, t) k =
        ((n + 1 : Int), c + 1, t + 1) := by
      unfold keypressStep
      rw [if_neg (hnb k (List.mem_cons_self k ks))]
      have hcond : ((n : Int)) < (targetText.length : Int) ∧
          charAt targetText (n : Int) = some k.key := by
        constructor
        · exact_mod_cast hlt
        · rw [charAt, if_pos (by positivity), Int.toNat_natCast]
          exact hget
      dsimp only
      rw [if_pos hcond]
    rw [hstep]
    have := ih (n + 1) (c + 1) (t + 1)
      (fun k hk => hnb k (List.mem_cons_of_mem _ hk)) hdrop
    rw [show ((n : Int) + 1) = ((n + 1 : Nat) : Int) by push_cast; ring, this]
    refine Prod.ext ?_ (Prod.ext ?_ ?_) <;> simp <;> omega

/-- C4: keypress-level accuracy is `correct / total * 100` (100 when there are
no keypresses), always lies between 0 and 100, and equals exactly 100 when the
log contains no backspace and spells out the target text. -/
theorem analyzeKeypressAccuracy_spec (keystrokes : List Keystroke) (targetText : List Char) :
    ((analyzeKeypressAccuracy keystrokes targetText).accuracy =
      if 0 < (analyzeKeypressAccuracy keystrokes targetText).totalKeypresses
      then ((analyzeKeypressAccuracy keystrokes targetText).correctKeypresses : ℚ) /
        ((analyzeKeypressAccuracy keystrokes targetText).totalKeypresses : ℚ) * 100
      else 100) ∧
    0 ≤ (analyzeKeypressAccuracy keystrokes targetText).accuracy ∧
    (analyzeKeypressAccuracy keystrokes targetText).accuracy ≤ 100 ∧
    ((∀ k ∈ keystrokes, k.key ≠ backspace) →
      keystrokes.map Keystroke.key = targetText →
      (analyzeKeypressAccuracy keystrokes targetText).accuracy = 100) := by
  have hle := keypress_foldl_correct_le_total targetText keystrokes (0, 0, 0) (by simp)
  set st := keystrokes.foldl (keypressStep targetText) (0, 0, 0) with hst
  refine ⟨rfl, ?_, ?_, ?_⟩
  · simp only [analyzeKeypressAccuracy, ← hst]
    split
    · positivity
    · norm_num
  · simp only [analyzeKeypressAccuracy, ← hst]
    split
    · rename_i hpos
      have h1 : (st.2.1 : ℚ) / (st.2.2 : ℚ) ≤ 1 := by
        rw [div_le_one (by exact_mod_cast hpos)]
        exact_mod_cast hle
      nlinarith
    · norm_num
  · intro hnb hmap
    have hfold := keypress_foldl_all_correct targetText keystrokes 0 0 0 hnb (by simpa using hmap)
    rcases Nat.eq_zero_or_pos keystrokes.length with h0 | hpos
    · have hnil : keystrokes = [] := List.length_eq_zero.mp h0
      subst hnil
      simp [analyzeKeypressAccuracy]
    · simp only [analyzeKeypressAccuracy]
      rw [show ((0, 0, 0) : Int × Nat × Nat) = (((0 : Nat) : Int), (0 : Nat), (0 : Nat)) from rfl,
        hfold]
      dsimp only
      rw [if_pos (by omega : 0 < 0 + keystrokes.length)]
      have hne : ((0 + keystrokes.length : Nat) : ℚ) ≠ 0 := Nat.cast_ne_zero.mpr (by omega)
      rw [div_self hne]
      norm_num


/-- C4 witness: a backspace-free log spelling the target exactly scores 100. -/
theorem analyzeKeypressAccuracy_spec_witness :
    (analyzeKeypressAccuracy
      [⟨'h', 0, 0⟩, ⟨'i', 100, 100⟩] ['h', 'i']).accuracy = 100 :=
  (analyzeKeypressAccuracy_spec [⟨'h', 0, 0⟩, ⟨'i', 100, 100⟩] ['h', 'i']).2.2.2
    (by decide) (by decide)

/-- C10: along the keypress replay the cursor position is never negative, a
backspace arriving at position 0 leaves the state unchanged, and the total
keypress count equals the number of non-backspace keystrokes in the log. -/
theorem keypress_position_invariant (keystrokes : List Keystroke) (targetText : List Char) :
    (∀ pre suf, keystrokes = pre ++ suf →
      0 ≤ (pre.foldl (keypressStep targetText) (0, 0, 0)).1) ∧
    (∀ (c t : Nat) (keystroke : Keystroke), keystroke.key = backspace →
      keypressStep targetText (0, c, t) keystroke = (0, c, t)) ∧
    (analyzeKeypressAccuracy keystrokes targetText).totalKeypresses =
      Calculations.countAllTypedCharacters keystrokes := by
  refine ⟨?_, ?_, ?_⟩
  · intro pre _ _
    exact keypress_foldl_position_nonneg targetText pre (0, 0, 0) (by norm_num)
  · intro c t keystroke hk
    unfold keypressStep
    rw [if_pos hk]
    norm_num
  · simp only [analyzeKeypressAccuracy]
    rw [keypress_foldl_total_count]
    norm_num

/-- C10 witness: a log with a leading surplus backspace keeps the cursor at 0
and counts only its single non-backspace keystroke. -/
theorem keypress_position_invariant_witness :
    0 ≤ (([⟨backspace, 0, 0⟩] : List Keystroke).foldl
        (keypressStep ['a']) (0, 0, 0)).1 ∧
    keypressStep ['a'] (0, 3, 4) ⟨backspace, 0, 0⟩ = (0, 3, 4) ∧
    (analyzeKeypressAccuracy [⟨backspace, 0, 0⟩, ⟨'a', 50, 50⟩] ['a']).totalKeypresses =
      Calculations.countAllTypedCharacters [⟨backspace, 0, 0⟩, ⟨'a', 50, 50⟩] :=
  ⟨(keypress_position_invariant
      [⟨backspace, 0, 0⟩, ⟨'a', 50, 50⟩] ['a']).1
      [⟨backspace, 0, 0⟩] [⟨'a', 50, 50⟩] rfl,
   (keypress_position_invariant
      [⟨backspace, 0, 0⟩, ⟨'a', 50, 50⟩] ['a']).2.1 3 4 ⟨backspace, 0, 0⟩ rfl,
   (keypress_position_invariant
      [⟨backspace, 0, 0⟩, ⟨'a', 50, 50⟩] ['a']).2.2⟩

/-- JavaScript `String.prototype.indexOf(character, fromIndex)`: index of the
first occurrence of the character at or after `fromIndex`, or `-1` when there is
none. -/
def indexOfFrom (s : List Char) (c : Char) (fromIndex : Nat) : Int :=
  match (s.drop fromIndex).findIdx? (fun x => x = c) with
  | some k => ((fromIndex + k : Nat) : Int)
  | none => -1

/-- Kind of a single alignment discrepancy. -/
inductive ErrorType where
  | substitution
  | deletion
  | insertion
deriving DecidableEq, Repr

/-- One discrepancy found by the aligned-error walk (`ErrorFound` in
`src/models/TypingModel.ts`); `none` models a `null` character. -/
structure ErrorFound where
  expectedChar : Option Char
  actualChar : Option Char
  position : Nat
  type : ErrorType
deriving DecidableEq, Repr

/-- The while-loop of `TypingAnalyzer.findAlignedErrors`
(`src/services/TypingAnalyzer.ts`, lines 281-355), with the two loop-local
cursors as arguments.  Branches, in source order: input past the end of target
is an insertion; target past the end of input is a deletion; matching characters
advance both cursors silently; otherwise the lookahead distances
`nextTargetInInput - inputIndex` and `nextInputInTarget - targetIndex` decide
between insertion (strictly closer resynchronization in the input), deletion
(the input character reappears in the target), and substitution (neither
character reappears).  Characters are read with `getD` at indices the loop
guards keep in range. -/
def goAligned (target input : List Char) (targetIndex inputIndex : Nat) : List ErrorFound :=
  if h : targetIndex < target.length ∨ inputIndex < input.length then
    if h1 : target.length ≤ targetIndex then
      { expectedChar := none, actualChar := some (input.getD inputIndex default),
        position := targetIndex, type := ErrorType.insertion } ::
        goAligned target input targetIndex (inputIndex + 1)
    else if h2 : input.length ≤ inputIndex then
      { expectedChar := some (target.getD targetIndex default), actualChar := none,
        position := targetIndex, type := ErrorType.deletion } ::
        goAligned target input (targetIndex + 1) inputIndex
    else if target.getD targetIndex default = input.getD inputIndex default then
      goAligned target input (targetIndex + 1) (inputIndex + 1)
    else if indexOfFrom input (target.getD targetIndex default) (inputIndex + 1) ≠ -1 ∧
        (indexOfFrom target (input.getD inputIndex default) (targetIndex + 1) = -1 ∨
          indexOfFrom input (target.getD targetIndex default) (inputIndex + 1) - (inputIndex : Int) <
            indexOfFrom target (input.getD inputIndex default) (targetIndex + 1) - (targetIndex : Int)) then
      { expectedChar := none, actualChar := some (input.getD inputIndex default),
        position := targetIndex, type := ErrorType.insertion } ::
        goAligned target input targetIndex (inputIndex + 1)
    else if indexOfFrom target (input.getD inputIndex default) (targetIndex + 1) ≠ -1 then
      { expectedChar := some (target.getD targetIndex default), actualChar := none,
        position := targetIndex, type := ErrorType.deletion } ::
        goAligned target input (targetIndex + 1) inputIndex
    else
      { expectedChar := some (target.getD targetIndex default),
        actualChar := some (input.getD inputIndex default),
        position := targetIndex, type := ErrorType.substitution } ::
        goAligned target input (targetIndex + 1) (inputIndex + 1)
  else []
termination_by (target.length - targetIndex) + (input.length - inputIndex)
decreasing_by all_goals omega

/-- `TypingAnalyzer.findAlignedErrors(target, input)`: the walk started with
both cursors at 0. -/
def findAlignedErrors (target input : List Char) : List ErrorFound :=
  goAligned target input 0 0

/-- Fuel-indexed variant of the walk, used to express termination: `none` means
the iteration budget ran out before the loop finished. -/
def goAlignedFuel (target input : List Char) : Nat → Nat → Nat → Option (List ErrorFound)
  | targetIndex, inputIndex, 0 =>
    if targetIndex < target.length ∨ inputIndex < input.length then none else some []
  | targetIndex, inputIndex, fuel + 1 =>
    if targetIndex < target.length ∨ inputIndex < input.length then
      if target.length ≤ targetIndex then
        (goAlignedFuel target input targetIndex (inputIndex + 1) fuel).map
          (fun rest =>
            { expectedChar := none, actualChar := some (input.getD inputIndex default),
              position := targetIndex, type := ErrorType.insertion } :: rest)
      else if input.length ≤ inputIndex then
        (goAlignedFuel target input (targetIndex + 1) inputIndex fuel).map
          (fun rest =>
            { expectedChar := some (target.getD targetIndex default), actualChar := none,
              position := targetIndex, type := ErrorType.deletion } :: rest)
      else if target.getD targetIndex default = input.getD inputIndex default then
        goAlignedFuel target input (targetIndex + 1) (inputIndex + 1) fuel
      else if indexOfFrom input (target.getD targetIndex default) (inputIndex + 1) ≠ -1 ∧
          (indexOfFrom target (input.getD inputIndex default) (targetIndex + 1) = -1 ∨
            indexOfFrom input (target.getD targetIndex default) (inputIndex + 1) - (inputIndex : Int) <
              indexOfFrom target (input.getD inputIndex default) (targetIndex + 1) - (targetIndex : Int)) then
        (goAlignedFuel target input targetIndex (inputIndex + 1) fuel).map
          (fun rest =>
            { expectedChar := none, actualChar := some (input.getD inputIndex default),
              position := targetIndex, type := ErrorType.insertion } :: rest)
      else if indexOfFrom target (input.getD inputIndex default) (targetIndex + 1) ≠ -1 then
        (goAlignedFuel target input (targetIndex + 1) inputIndex fuel).map
          (fun rest =>
            { expectedChar := some (target.getD targetIndex default), actualChar := none,
              position := targetIndex, type := ErrorType.deletion } :: rest)
      else
        (goAlignedFuel target input (targetIndex + 1) (inputIndex + 1) fuel).map
          (fun rest =>
            { expectedChar := some (target.getD targetIndex default),
              actualChar := some (input.getD inputIndex default),
              position := targetIndex, type := ErrorType.substitution } :: rest)
    else some []

theorem goAlignedFuel_adequate (target input : List Char) :
    ∀ (fuel targetIndex inputIndex : Nat),
      (target.length - targetIndex) + (input.length - inputIndex) ≤ fuel →
      goAlignedFuel target input targetIndex inputIndex fuel =
        some (goAligned target input targetIndex inputIndex) := by
  intro fuel
  induction fuel with
  | zero =>
    intro ti ii hm
    have hdone : ¬(ti < target.length ∨ ii < input.length) := by omega
    rw [goAligned, dif_neg hdone]
    simp only [goAlignedFuel]
    rw [if_neg hdone]
  | succ fuel ih =>
    intro ti ii hm
    rw [goAligned]
    simp only [goAlignedFuel]
    split_ifs with h h1 h2 heq h3 h4
    · have hii : ii < input.length := by omega
      rw [ih ti (ii + 1) (by omega)]
      rfl
    · rw [ih (ti + 1) ii (by omega)]
      rfl
    · rw [ih (ti + 1) (ii + 1) (by omega)]
    · rw [ih ti (ii + 1) (by omega)]
      rfl
    · rw [ih (ti + 1) ii (by omega)]
      rfl
    · rw [ih (ti + 1) (ii + 1) (by omega)]
      rfl
    · rfl

theorem goAligned_diag_nil (target : List Char) :
    ∀ (n k : Nat), target.length - k ≤ n → goAligned target target k k = [] := by
  intro n
  induction n with
  | zero =>
    intro k hm
    have hdone : ¬(k < target.length ∨ k < target.length) := by omega
    rw [goAligned, dif_neg hdone]
  | succ n ih =>
    intro k hm
    by_cases hk : k < target.length
    · rw [goAligned, dif_pos (Or.inl hk), dif_neg (not_le.mpr hk), dif_neg (not_le.mpr hk),
        if_pos rfl]
      exact ih (k + 1) (by omega)
    · rw [goAligned, dif_neg (by omega)]

/-- C7: the aligned-error walk terminates within `len(target) + len(input)`
iterations of the loop (the fuel-indexed walk completes on that budget and
agrees with the total walk), and it returns the empty error list on identical
strings. -/
theorem findAlignedErrors_terminates (target input : List Char) :
    goAlignedFuel target input 0 0 (target.length + input.length) =
      some (findAlignedErrors target input) ∧
    (target = input → findAlignedErrors target input = []) := by
  constructor
  · exact goAlignedFuel_adequate target input _ 0 0 (by omega)
  · intro h
    subst h
    exact goAligned_diag_nil target target.length 0 (by omega)

/-- C7 witness: on a concrete pair of equal one-character strings the fuel
bound suffices and the error list is empty. -/
theorem findAlignedErrors_terminates_witness :
    goAlignedFuel ['a'] ['a'] 0 0 2 = some (findAlignedErrors ['a'] ['a']) ∧
    findAlignedErrors ['a'] ['a'] = [] :=
  ⟨(findAlignedErrors_terminates ['a'] ['a']).1,
   (findAlignedErrors_terminates ['a'] ['a']).2 rfl⟩

/-- C3 (amended): in the aligned-error walk, a mismatch whose two lookahead
distances are equal (both resynchronization characters exist, equally far
ahead) is classified as a deletion — the target cursor advances; the strict
comparison in the insertion guard sends ties to the deletion branch. -/
theorem goAligned_tie_is_deletion (target input : List Char) (targetIndex inputIndex : Nat)
    (ht : targetIndex < target.length) (hi : inputIndex < input.length)
    (hne : target.getD targetIndex default ≠ input.getD inputIndex default)
    (ha : indexOfFrom input (target.getD targetIndex default) (inputIndex + 1) ≠ -1)
    (hb : indexOfFrom target (input.getD inputIndex default) (targetIndex + 1) ≠ -1)
    (htie : indexOfFrom input (target.getD targetIndex default) (inputIndex + 1) -
        (inputIndex : Int) =
      indexOfFrom target (input.getD inputIndex default) (targetIndex + 1) -
        (targetIndex : Int)) :
    goAligned target input targetIndex inputIndex =
      { expectedChar := some (target.getD targetIndex default), actualChar := none,
        position := targetIndex, type := ErrorType.deletion } ::
        goAligned target input (targetIndex + 1) inputIndex := by
  have hnotins : ¬(indexOfFrom input (target.getD targetIndex default) (inputIndex + 1) ≠ -1 ∧
      (indexOfFrom target (input.getD inputIndex default) (targetIndex + 1) = -1 ∨
        indexOfFrom input (target.getD targetIndex default) (inputIndex + 1) -
            (inputIndex : Int) <
          indexOfFrom target (input.getD inputIndex default) (targetIndex + 1) -
            (targetIndex : Int))) := by
    rintro ⟨-, hor⟩
    rcases hor with hnone | hlt
    · exact hb hnone
    · rw [htie] at hlt
      exact lt_irrefl _ hlt
  rw [goAligned, dif_pos (Or.inl ht), dif_neg (not_le.mpr ht), dif_neg (not_le.mpr hi),
    if_neg hne, if_neg hnotins, if_pos hb]

/-- C3 witness: at target `"ab"`, input `"ba"`, both cursors 0, the characters
mismatch, both lookahead distances equal 1, and the walk emits a deletion. -/
theorem goAligned_tie_is_deletion_witness :
    goAligned ['a', 'b'] ['b', 'a'] 0 0 =
      { expectedChar := some 'a', actualChar := none,
        position := 0, type := ErrorType.deletion } ::
        goAligned ['a', 'b'] ['b', 'a'] 1 0 := by
  have h := goAligned_tie_is_deletion ['a', 'b'] ['b', 'a'] 0 0
    (by decide) (by decide) (by decide) (by decide) (by decide) (by decide)
  simpa using h

/-- C3 counterexample: the claim says an equal-lookahead mismatch becomes an
insertion (input cursor advances).  At target `"ab"`, input `"ba"` the
lookahead distances are equal (both characters reappear one position ahead),
yet the walk records a deletion at position 0, not an insertion: the full
result is a deletion followed by a trailing insertion. -/
theorem goAligned_tie_insertion_cex :
    (indexOfFrom ['b', 'a'] 'a' 1 - 0 = indexOfFrom ['a', 'b'] 'b' 1 - 0 ∧
      indexOfFrom ['b', 'a'] 'a' 1 ≠ -1 ∧
      indexOfFrom ['a', 'b'] 'b' 1 ≠ -1 ∧
      (['a', 'b'] : List Char).getD 0 default ≠ (['b', 'a'] : List Char).getD 0 default) ∧
    findAlignedErrors ['a', 'b'] ['b', 'a'] =
      [{ expectedChar := some 'a', actualChar := none,
         position := 0, type := ErrorType.deletion },
       { expectedChar := none, actualChar := some 'a',
         position := 2, type := ErrorType.insertion }] := by
  constructor
  · refine ⟨by decide, by decide, by decide, by decide⟩
  · simp [findAlignedErrors, goAligned, indexOfFrom]

/-- JavaScript `Math.round(x * 100) / 100` over the reals. -/
noncomputable def round2R (x : ℝ) : ℝ := ((⌊x * 100 + 1 / 2⌋ : Int) : ℝ) / 100

/-- `TypingAnalyzer.calculatePureRhythmConsistency`
(`src/services/TypingAnalyzer.ts`, lines 202-252).  Fewer than 3 rhythm
intervals yield the fixed score 85.  Otherwise quartiles are read off the
sorted list at indices `floor(n * 0.25)` and `floor(n * 0.75)` (floor division
by 4, exact for IEEE doubles at these magnitudes), Tukey fences
`[q1 - 1.5 * iqr, q3 + 1.5 * iqr]` filter outliers when there are at least 5
samples and the IQR is positive, the filtering is discarded when it would drop
more than half the samples, and the score is
`max(0, 100 * exp(-2 * cv))` for the coefficient of variation `cv` of the
(possibly filtered) intervals (`cv = 0` when the mean is not positive).
Interval statistics stay in `ℚ`; `Math.sqrt`/`Math.exp` move to `ℝ`. -/
noncomputable def calculatePureRhythmConsistency (rhythmIntervals : List ℚ) : ℝ :=
  if rhythmIntervals.length < 3 then 85
  else
    let sortedIntervals := rhythmIntervals.mergeSort (fun a b => decide (a ≤ b))
    let q1Index := sortedIntervals.length / 4
    let q3Index := sortedIntervals.length * 3 / 4
    let q1 := sortedIntervals.getD q1Index 0
    let q3 := sortedIntervals.getD q3Index 0
    let iqr := q3 - q1
    let filteredIntervals :=
      if 5 ≤ rhythmIntervals.length ∧ 0 < iqr then
        rhythmIntervals.filter
          (fun interval => decide (q1 - 3 / 2 * iqr ≤ interval ∧ interval ≤ q3 + 3 / 2 * iqr))
      else rhythmIntervals
    let keptIntervals :=
      if filteredIntervals.length * 2 < rhythmIntervals.length then rhythmIntervals
      else filteredIntervals
    let mean := keptIntervals.sum / (keptIntervals.length : ℚ)
    let variance :=
      (keptIntervals.map (fun interval => (interval - mean) ^ 2)).sum /
        (keptIntervals.length : ℚ)
    let standardDeviation := Real.sqrt (variance : ℝ)
    let coefficientOfVariation :=
      if 0 < mean then standardDeviation / ((mean : ℚ) : ℝ) else 0
    max 0 (100 * Real.exp (-2 * coefficientOfVariation))

/-- `TypingAnalyzer.calculateHesitationPenalty`
(`src/services/TypingAnalyzer.ts`, lines 254-266):
`min(40, ratio * 30 + ratio^0.5 * 15)`, 0 when there are no intervals. -/
noncomputable def calculateHesitationPenalty (hesitationCount totalIntervals : Nat) : ℝ :=
  if totalIntervals = 0 then 0
  else
    min 40 (((hesitationCount : ℝ) / (totalIntervals : ℝ)) * 30 +
      Real.sqrt ((hesitationCount : ℝ) / (totalIntervals : ℝ)) * 15)

/-- `TypingAnalyzer.calculatePausePenalty`
(`src/services/TypingAnalyzer.ts`, lines 268-279):
`min(20, ratio * 15)`, 0 when there are no intervals. -/
noncomputable def calculatePausePenalty (pauseCount totalIntervals : Nat) : ℝ :=
  if totalIntervals = 0 then 0
  else min 20 (((pauseCount : ℝ) / (totalIntervals : ℝ)) * 15)

/-- `TypingAnalyzer.calculateConsistencyScore`
(`src/services/TypingAnalyzer.ts`, lines 114-149): 100 for fewer than 5
keystrokes; otherwise the positive `timeSinceLast` gaps of all but the first
keystroke are bucketed at the 400 ms and 2000 ms thresholds, and the final
score is `max(0, rhythmScore - hesitationPenalty - pausePenalty)` rounded to
two decimal places (100 when no positive interval remains). -/
noncomputable def calculateConsistencyScore (keystrokes : List Keystroke) : ℝ :=
  if keystrokes.length < 5 then 100
  else
    let intervals :=
      ((keystrokes.drop 1).map Keystroke.timeSinceLast).filter
        (fun interval => decide (0 < interval))
    if intervals.length = 0 then 100
    else
      let rhythmIntervals := intervals.filter (fun interval => decide (interval ≤ 400))
      let hesitationIntervals :=
        intervals.filter (fun interval => decide (400 < interval ∧ interval ≤ 2000))
      let longPauseIntervals := intervals.filter (fun interval => decide (2000 < interval))
      let rhythmScore := calculatePureRhythmConsistency rhythmIntervals
      let totalIntervals := intervals.length
      let hesitationPenalty :=
        calculateHesitationPenalty hesitationIntervals.length totalIntervals
      let pausePenalty := calculatePausePenalty longPauseIntervals.length totalIntervals
      round2R (max 0 (rhythmScore - hesitationPenalty - pausePenalty))

theorem coefficientOfVariation_nonneg (m v : ℚ) :
    0 ≤ (if 0 < m then Real.sqrt (v : ℝ) / ((m : ℚ) : ℝ) else 0) := by
  split
  · rename_i hm
    exact div_nonneg (Real.sqrt_nonneg _) (by exact_mod_cast hm.le)
  · exact le_refl 0

theorem rhythm_expression_le (cv : ℝ) (hcv : 0 ≤ cv) :
    max 0 (100 * Real.exp (-2 * cv)) ≤ 100 := by
  refine max_le (by norm_num) ?_
  have hexp : Real.exp (-2 * cv) ≤ 1 := by
    calc Real.exp (-2 * cv) ≤ Real.exp 0 := Real.exp_le_exp.mpr (by linarith)
      _ = 1 := Real.exp_zero
  linarith

theorem calculatePureRhythmConsistency_bounds (rhythmIntervals : List ℚ) :
    0 ≤ calculatePureRhythmConsistency rhythmIntervals ∧
    calculatePureRhythmConsistency rhythmIntervals ≤ 100 := by
  unfold calculatePureRhythmConsistency
  split_ifs
  · norm_num
  · exact ⟨le_max_left 0 _, rhythm_expression_le _ (coefficientOfVariation_nonneg _ _)⟩

theorem calculateHesitationPenalty_nonneg (hesitationCount totalIntervals : Nat) :
    0 ≤ calculateHesitationPenalty hesitationCount totalIntervals := by
  unfold calculateHesitationPenalty
  split
  · exact le_refl 0
  · refine le_min (by norm_num) ?_
    have hr : (0 : ℝ) ≤ (hesitationCount : ℝ) / (totalIntervals : ℝ) :=
      div_nonneg (Nat.cast_nonneg _) (Nat.cast_nonneg _)
    have hs : (0 : ℝ) ≤ Real.sqrt ((hesitationCount : ℝ) / (totalIntervals : ℝ)) :=
      Real.sqrt_nonneg _
    linarith

theorem calculatePausePenalty_nonneg (pauseCount totalIntervals : Nat) :
    0 ≤ calculatePausePenalty pauseCount totalIntervals := by
  unfold calculatePausePenalty
  split
  · exact le_refl 0
  · refine le_min (by norm_num) ?_
    have hr : (0 : ℝ) ≤ (pauseCount : ℝ) / (totalIntervals : ℝ) :=
      div_nonneg (Nat.cast_nonneg _) (Nat.cast_nonneg _)
    linarith

theorem round2R_bounds (x : ℝ) (h0 : 0 ≤ x) (h100 : x ≤ 100) :
    0 ≤ round2R x ∧ round2R x ≤ 100 := by
  unfold round2R
  constructor
  · have hfl : (0 : Int) ≤ ⌊x * 100 + 1 / 2⌋ := by
      rw [Int.le_floor]
      push_cast
      linarith
    have : (0 : ℝ) ≤ ((⌊x * 100 + 1 / 2⌋ : Int) : ℝ) := by exact_mod_cast hfl
    linarith
  · have hfl : ⌊x * 100 + 1 / 2⌋ ≤ (10000 : Int) := by
      have h1 : ((⌊x * 100 + 1 / 2⌋ : Int) : ℝ) ≤ x * 100 + 1 / 2 := Int.floor_le _
      have h2 : ((⌊x * 100 + 1 / 2⌋ : Int) : ℝ) < 10001 := by linarith
      exact_mod_cast Int.lt_add_one_iff.mp (by exact_mod_cast h2)
    have : ((⌊x * 100 + 1 / 2⌋ : Int) : ℝ) ≤ 10000 := by exact_mod_cast hfl
    linarith

/-- C5: the consistency score always lies between 0 and 100, and any log of
fewer than 5 keystrokes scores exactly 100 whatever its timing values. -/
theorem calculateConsistencyScore_bounds (keystrokes : List Keystroke) :
    0 ≤ calculateConsistencyScore keystrokes ∧
    calculateConsistencyScore keystrokes ≤ 100 ∧
    (keystrokes.length < 5 → calculateConsistencyScore keystrokes = 100) := by
  have hfinal : ∀ (r hp pp : ℝ), r ≤ 100 → 0 ≤ hp → 0 ≤ pp →
      0 ≤ round2R (max 0 (r - hp - pp)) ∧ round2R (max 0 (r - hp - pp)) ≤ 100 := by
    intro r hp pp hr hhp hpp
    exact round2R_bounds _ (le_max_left 0 _) (max_le (by norm_num) (by linarith))
  have hmain : 0 ≤ calculateConsistencyScore keystrokes ∧
      calculateConsistencyScore keystrokes ≤ 100 := by
    unfold calculateConsistencyScore
    dsimp only
    split_ifs
    · norm_num
    · norm_num
    · exact hfinal _ _ _ (calculatePureRhythmConsistency_bounds _).2
        (calculateHesitationPenalty_nonneg _ _) (calculatePausePenalty_nonneg _ _)
  refine ⟨hmain.1, hmain.2, ?_⟩
  intro hlt
  unfold calculateConsistencyScore
  rw [if_pos hlt]

/-- C5 witness: the empty keystroke log has fewer than 5 keystrokes and scores
exactly 100. -/
theorem calculateConsistencyScore_bounds_witness :
    calculateConsistencyScore [] = 100 :=
  (calculateConsistencyScore_bounds []).2.2 (by decide)

/-- `TypingAnalyzer.calculateCorrectChars` (`src/services/TypingAnalyzer.ts`,
lines 51-58): `Math.max(0, minLength - editDistance)` where `minLength` is the
minimum of the two lengths. -/
def calculateCorrectChars (target input : List Char) : Int :=
  max 0 ((min target.length input.length : Int) - (levenshteinDistance target input : Int))

/-- `TypingAnalyzer.calculateWPM` (`src/services/TypingAnalyzer.ts`, lines
94-102): 0 for non-positive elapsed time, otherwise
`Math.round(correctedChars / 5 / timeInMinutes)`. -/
def calculateWPM (correctedChars timeInMinutes : ℚ) : Int :=
  if timeInMinutes ≤ 0 then 0
  else jsRound (correctedChars / 5 / timeInMinutes)

/-- `TypingAnalyzer.calculateGrossWPM` (`src/services/TypingAnalyzer.ts`, lines
104-112): 0 for non-positive elapsed time, otherwise
`Math.round(totalChars / 5 / timeInMinutes)`. -/
def calculateGrossWPM (totalChars timeInMinutes : ℚ) : Int :=
  if timeInMinutes ≤ 0 then 0
  else jsRound (totalChars / 5 / timeInMinutes)

/-- Accumulated data of one `errorMap` entry in
`TypingAnalyzer.analyzeErrorPatterns`. -/
structure ErrorPatternData where
  frequency : Nat
  positions : List Nat
  mistakes : List (Option Char)
  errorType : ErrorType
deriving DecidableEq, Repr

/-- Output entry of `analyzeErrorPatterns` (`ErrorPattern` in
`src/models/TypingModel.ts`).  `character = none` models the `_MISSING_`
sentinel key that the source renders as the empty string, and a `none` inside
`commonMistakes` models the `_DELETED_` sentinel. -/
structure ErrorPattern where
  character : Option Char
  frequency : Nat
  positions : List Nat
  commonMistakes : List (Option Char)
  errorType : ErrorType
deriving DecidableEq, Repr

/-- `errorData.mistakes.add(...)`: a JavaScript `Set` keeps one copy of each
value in insertion order. -/
def addMistake (mistakes : List (Option Char)) (m : Option Char) : List (Option Char) :=
  if m ∈ mistakes then mistakes else mistakes ++ [m]

/-- Body of the `alignedErrors.forEach` loop in `analyzeErrorPatterns`
(`src/services/TypingAnalyzer.ts`, lines 172-188).  The JavaScript `Map` is an
insertion-ordered association list; the key `error.expectedChar || "_MISSING_"`
is modelled as the `Option Char` itself (`none` is the sentinel).  A fresh
entry records the type of the error that created it; every matching error then
bumps the frequency, appends the position and adds the actual character (with
`none` for `null`, the `_DELETED_` sentinel). -/
def errorMapUpdate (errorMap : List (Option Char × ErrorPatternData)) (error : ErrorFound) :
    List (Option Char × ErrorPatternData) :=
  let withKey :=
    if errorMap.any (fun entry => decide (entry.1 = error.expectedChar)) then errorMap
    else errorMap ++ [(error.expectedChar, ⟨0, [], [], error.type⟩)]
  withKey.map (fun entry =>
    if entry.1 = error.expectedChar then
      (entry.1,
        ⟨entry.2.frequency + 1, entry.2.positions ++ [error.position],
          addMistake entry.2.mistakes error.actualChar, entry.2.errorType⟩)
    else entry)

/-- Stable insertion step for the descending sort by frequency. -/
def insertByFrequencyDesc (x : ErrorPattern) : List ErrorPattern → List ErrorPattern
  | [] => [x]
  | y :: ys => if x.frequency < y.frequency then y :: insertByFrequencyDesc x ys else x :: y :: ys

/-- The stable `Array.prototype.sort((a, b) => b.frequency - a.frequency)` used
by `analyzeErrorPatterns`: descending by frequency, ties keep first-seen
order. -/
def sortByFrequencyDesc (patterns : List ErrorPattern) : List ErrorPattern :=
  patterns.foldr insertByFrequencyDesc []

/-- `TypingAnalyzer.analyzeErrorPatterns` (`src/services/TypingAnalyzer.ts`,
lines 151-200); the component copy in
`src/services/components/errorAnalyzer.ts` is textually identical.  The guard
`!targetText || !inputText` is truthy exactly on empty strings; the
`keystrokes` parameter is accepted and ignored as in the source. -/
def analyzeErrorPatterns (targetText inputText : List Char)
    (keystrokes : List Keystroke) : List ErrorPattern :=
  if targetText = [] ∨ inputText = [] then []
  else
    let alignedErrors := findAlignedErrors targetText inputText
    let errorMap := alignedErrors.foldl errorMapUpdate []
    let patterns := errorMap.map (fun entry =>
      { character := entry.1, frequency := entry.2.frequency,
        positions := entry.2.positions, commonMistakes := entry.2.mistakes,
        errorType := entry.2.errorType : ErrorPattern })
    (sortByFrequencyDesc patterns).take 10

/-- C9: with an empty target or an empty input the error-pattern analysis
returns the empty list, whatever the keystroke log. -/
theorem analyzeErrorPatterns_empty_guard (targetText inputText : List Char)
    (keystrokes : List Keystroke) (h : targetText = [] ∨ inputText = []) :
    analyzeErrorPatterns targetText inputText keystrokes = [] := by
  unfold analyzeErrorPatterns
  rw [if_pos h]

/-- C9 witness: a nonempty target against the empty input has positive edit
distance, yet no error patterns are reported. -/
theorem analyzeErrorPatterns_empty_guard_witness :
    analyzeErrorPatterns ['a', 'b', 'c'] [] [] = [] ∧
    0 < levenshteinDistance ['a', 'b', 'c'] [] :=
  ⟨analyzeErrorPatterns_empty_guard ['a', 'b', 'c'] [] [] (Or.inr rfl),
   by simp [levenshteinDistance, levCell_zero_right]⟩

/-- Elapsed time of a session in minutes as computed in
`TypingAnalyzer.analyzeSession` (`src/services/TypingAnalyzer.ts`, lines
25-28): `Math.max(0.01, (endTime - startTime) / 60000)`. -/
def sessionTimeInMinutes (session : TypingSession) : ℚ :=
  max (1 / 100) ((session.endTime - session.startTime) / 60000)

/-- The report assembled by `analyzeSession` (`TypingStats` in
`src/models/TypingModel.ts`, fields produced by the current analyzer). -/
structure TypingStats where
  wpm : Int
  grossWPM : Int
  accuracy : ℚ
  errorCount : Nat
  correctChars : Int
  totalChars : Nat
  consistencyScore : ℝ
  errorPatterns : List ErrorPattern

/-- `TypingAnalyzer.analyzeSession` (`src/services/TypingAnalyzer.ts`, lines
10-49): keypress accuracy from the raw log, edit distance between target and
final input as the error count, net WPM from `calculateCorrectChars`, gross WPM
from the length of the final `userInput`, consistency from the log, error
patterns from the aligned walk. -/
noncomputable def analyzeSession (session : TypingSession) : TypingStats :=
  let keypressAnalysis := analyzeKeypressAccuracy session.keystrokes session.targetText
  let totalChars := session.userInput.length
  let correctChars := calculateCorrectChars session.targetText session.userInput
  let errorCount := levenshteinDistance session.targetText session.userInput
  let accuracy := keypressAnalysis.accuracy
  let timeInMinutes := sessionTimeInMinutes session
  let wpm := calculateWPM (correctChars : ℚ) timeInMinutes
  let grossWPM := calculateGrossWPM (totalChars : ℚ) timeInMinutes
  let consistencyScore := calculateConsistencyScore session.keystrokes
  let errorPatterns := analyzeErrorPatterns session.targetText session.userInput session.keystrokes
  { wpm := wpm, grossWPM := grossWPM, accuracy := round2 accuracy,
    errorCount := errorCount, correctChars := correctChars, totalChars := totalChars,
    consistencyScore := consistencyScore, errorPatterns := errorPatterns }

theorem sessionTimeInMinutes_pos (session : TypingSession) :
    0 < sessionTimeInMinutes session :=
  lt_of_lt_of_le (by norm_num) (le_max_left _ _)

/-- C1 (amended): the corrected-character count used for net WPM is
`max(0, min(len(targetText), len(userInput)) - errorCount)` with `errorCount`
the Levenshtein distance, and net WPM is
`round(correctedChars / 5 / timeInMinutes)`. -/
theorem analyzeSession_correctChars_netWPM (session : TypingSession) :
    (analyzeSession session).correctChars =
      max 0 ((min session.targetText.length session.userInput.length : Int) -
        (levenshteinDistance session.targetText session.userInput : Int)) ∧
    (analyzeSession session).wpm =
      jsRound ((((analyzeSession session).correctChars : ℚ) / 5) /
        sessionTimeInMinutes session) := by
  constructor
  · rfl
  · have hpos := sessionTimeInMinutes_pos session
    show calculateWPM _ _ = _
    unfold calculateWPM
    rw [if_neg (not_le.mpr hpos)]
    rfl

/-- C1 counterexample: for target `"ab"` and input `"a"` the claimed formula
`max(0, len(target) - errorCount)` gives 1, but the code computes
`max(0, min(len(target), len(input)) - errorCount) = 0`. -/
theorem calculateCorrectChars_target_length_cex :
    calculateCorrectChars ['a', 'b'] ['a'] ≠
      max 0 (((['a', 'b'] : List Char).length : Int) -
        (levenshteinDistance ['a', 'b'] ['a'] : Int)) ∧
    calculateCorrectChars ['a', 'b'] ['a'] = 0 ∧
    levenshteinDistance ['a', 'b'] ['a'] = 1 := by
  have hlev : levenshteinDistance ['a', 'b'] ['a'] = 1 := by
    simp [levenshteinDistance, levCell]
  refine ⟨?_, ?_, hlev⟩
  · rw [calculateCorrectChars, hlev]
    norm_num
  · rw [calculateCorrectChars, hlev]
    norm_num

/-- C2 (amended): gross WPM is `round((totalChars / 5) / timeInMinutes)` where
`totalChars` is the length of the final `userInput`, not the number of
non-backspace keystrokes. -/
theorem analyzeSession_grossWPM_userInput (session : TypingSession) :
    (analyzeSession session).grossWPM =
      jsRound (((session.userInput.length : ℚ) / 5) / sessionTimeInMinutes session) := by
  have hpos := sessionTimeInMinutes_pos session
  show calculateGrossWPM _ _ = _
  unfold calculateGrossWPM
  rw [if_neg (not_le.mpr hpos)]

/-- Scenario B of the specification: target `"hello"`, keystrokes
`h, x, ⌫, e, y, ⌫, l, l, o` replaying to `"hello"`, here over an elapsed time
of 12000 ms (0.2 minutes). -/
def scenarioBSession : TypingSession :=
  { startTime := 0, endTime := 12000,
    targetText := ['h', 'e', 'l', 'l', 'o'],
    userInput := ['h', 'e', 'l', 'l', 'o'],
    keystrokes :=
      [⟨'h', 1000, 0⟩, ⟨'x', 1100, 100⟩, ⟨backspace, 1200, 100⟩, ⟨'e', 1300, 100⟩,
       ⟨'y', 1400, 100⟩, ⟨backspace, 1500, 100⟩, ⟨'l', 1600, 100⟩, ⟨'l', 1700, 100⟩,
       ⟨'o', 1800, 100⟩] }

/-- C2 counterexample: in scenario B the log holds 7 non-backspace keystrokes
and replays to the 5-character input `"hello"`; over 0.2 minutes the analyzer
reports gross WPM 5 (from the 5 characters of `userInput`), while the claimed
formula over 7 typed characters gives 7. -/
theorem grossWPM_keystroke_count_cex :
    TypingSessionManager.replayKeystrokes scenarioBSession.keystrokes =
      scenarioBSession.userInput ∧
    Calculations.countAllTypedCharacters scenarioBSession.keystrokes = 7 ∧
    (analyzeSession scenarioBSession).grossWPM = 5 ∧
    jsRound (((Calculations.countAllTypedCharacters scenarioBSession.keystrokes : ℚ) / 5) /
      sessionTimeInMinutes scenarioBSession) = 7 := by
  have htime : sessionTimeInMinutes scenarioBSession = 1 / 5 := by
    norm_num [sessionTimeInMinutes, scenarioBSession, max_def]
  have hcount : Calculations.countAllTypedCharacters scenarioBSession.keystrokes = 7 := by
    decide
  refine ⟨by decide, hcount, ?_, ?_⟩
  · have h : (analyzeSession scenarioBSession).grossWPM =
        calculateGrossWPM ((scenarioBSession.userInput.length : ℚ))
          (sessionTimeInMinutes scenarioBSession) := rfl
    rw [h, htime]
    norm_num [calculateGrossWPM, jsRound, scenarioBSession]
  · rw [hcount, htime]
    norm_num [jsRound]

end TypingAnalyzer

namespace WpmCalculator

/-- Embeds `calculateWPM` from `src/services/components/wpmCalculator.ts`
(lines 1-8).  The guard is `timeInMinutes < 0` (strictly), so
`timeInMinutes = 0` reaches the division `correctWords / timeInMinutes`; in
JavaScript a division by zero produces a non-finite number (`Infinity`, or
`NaN` for `0 / 0`), which has no image in `ℚ` and is modelled as `none`. -/
def calculateWPM (correctWords timeInMinutes : ℚ) : Option Int :=
  if timeInMinutes < 0 then some 0
  else if timeInMinutes = 0 then none
  else some (jsRound (correctWords / timeInMinutes))

/-- Embeds `calculateGrossWPM` from the same module (lines 10-18), whose guard
is `timeInMinutes <= 0`. -/
def calculateGrossWPM (totalTypedChars timeInMinutes : ℚ) : Int :=
  if timeInMinutes ≤ 0 then 0
  else jsRound (totalTypedChars / 5 / timeInMinutes)

end WpmCalculator

/-- C8: at `timeInMinutes = 0` the component net-WPM calculator does not return
0 — its guard only covers strictly negative time, so it divides by zero and
yields a non-finite value (modelled `none`) — while the sibling gross
calculator and both calculators inside `TypingAnalyzer` return 0 for zero and
negative elapsed time. -/
theorem wpm_zero_time_guard :
    WpmCalculator.calculateWPM 5 0 = none ∧
    WpmCalculator.calculateWPM 5 (-1) = some 0 ∧
    WpmCalculator.calculateGrossWPM 5 0 = 0 ∧
    TypingAnalyzer.calculateWPM 5 0 = 0 ∧
    TypingAnalyzer.calculateGrossWPM 5 0 = 0 ∧
    TypingAnalyzer.calculateWPM 5 (-1) = 0 ∧
    TypingAnalyzer.calculateGrossWPM 5 (-1) = 0 := by
  decide

end TypeSH
